import Mathlib

/-!
Shallow embedding of xbps lib/util_hash.c (integrity verification
primitives): hex digest encoding and comparison, file digest checking,
metadata-dictionary digest lookup and verification, and read-only file
mapping with page rounding and a guard page.

Conventions of the embedding:
* A C string is a `List Nat` of its character codes, without the trailing
  NUL byte; `strcmp` equality between NUL-free C strings is list equality,
  and `strlen` is the length of the longest NUL-free prefix (`cstrlen`).
* Machine integers are `Nat` with explicit reduction mod 2 ^ 64 where
  size_t overflow matters.
* The OS and OpenSSL boundary (open, read, SHA256_Init, SHA256_Update,
  SHA256_Final) is outside this translation unit; the observable result of
  `xbps_file_sha256_raw` on a path is therefore an oracle parameter
  mapping each path to either the errno of a failed open or read, or the
  computed raw 32-byte digest.
-/

/-- Character codes as C strings: a `List Nat` of bytes without the NUL. -/
abbrev CStr := List Nat

/-- Constant XBPS_SHA256_DIGEST_SIZE. Modelled from the spec: the header
xbps_api_impl.h is not under src; the spec fixes the raw digest at 32
bytes. -/
def XBPS_SHA256_DIGEST_SIZE : Nat := 32

/-- Constant XBPS_SHA256_SIZE. Modelled from the spec: the hex digest is
64 characters, 65 bytes including the NUL terminator. -/
def XBPS_SHA256_SIZE : Nat := 65

/-- errno value ENOENT (2). -/
def ENOENT : Nat := 2

/-- errno value ERANGE (34). -/
def ERANGE : Nat := 34

/-- High-nibble hex character of a byte. Both digest2string (lines 28-31)
and sha256_digest_compare (lines 157-163) use this same formula:
character 48 is the digit 0 and character 97 is the letter a, so values
below 10 become digits and the rest lowercase letters. -/
def hexHi (b : Nat) : Nat :=
  if b / 16 < 10 then 48 + b / 16 else 97 + (b / 16 - 10)

/-- Low-nibble hex character of a byte, as in digest2string lines 32-35
and sha256_digest_compare lines 164-170. -/
def hexLo (b : Nat) : Nat :=
  if b % 16 < 10 then 48 + b % 16 else 97 + (b % 16 - 10)

/-- digest2string (lines 24-39): writes two hex characters per digest
byte, `len` bytes in all, and then a NUL terminator. The result here is
the written string content, without the terminating NUL. Reading past the
end of the digest buffer would be out of bounds in C, so the model stops
when the list runs out (callers always pass a buffer of exactly `len`
bytes). -/
def digest2string : List Nat → Nat → CStr
  | _, 0 => []
  | [], _ + 1 => []
  | b :: rest, len + 1 => hexHi b :: hexLo b :: digest2string rest len

/-- strlen on the embedding of a C string: length of the longest prefix
without a NUL byte. -/
def cstrlen (s : CStr) : Nat := (s.takeWhile (fun c => c != 0)).length

/-- The scan loop of sha256_digest_compare (lines 156-172). The loop
tests only the first character of each pair against the terminator; the
second character is compared directly against the low-nibble hex
character (a NUL there simply fails the comparison, as in C, where the
read hits the terminator). An empty digest with string characters left
would be an out-of-bounds read in C, unreachable under the length guards;
the model returns false there. -/
def compareWalk : CStr → List Nat → Bool
  | [], _ => true
  | c1 :: s1, d =>
    if c1 = 0 then true
    else
      match s1, d with
      | c2 :: s2, b :: d2 =>
        if c1 = hexHi b then
          (if c2 = hexLo b then compareWalk s2 d2 else false)
        else false
      | _, _ => false

/-- sha256_digest_compare (lines 143-175): defensive length guards
(shalen must be XBPS_SHA256_SIZE - 1 = 64, digestlen must be 32; the
asserts compile out under NDEBUG and the checks return false), then the
nibble-walking comparison. -/
def sha256_digest_compare (sha256 : CStr) (shalen : Nat)
    (digest : List Nat) (digestlen : Nat) : Bool :=
  if shalen ≠ XBPS_SHA256_SIZE - 1 then false
  else if digestlen ≠ XBPS_SHA256_DIGEST_SIZE then false
  else compareWalk sha256 digest

/-- Oracle for the observable behaviour of xbps_file_sha256_raw
(lines 92-122) per path: either the errno left by a failed open or read,
or the 32-byte raw digest the OpenSSL streaming loop computes. -/
abbrev HashFs := CStr → Except Nat (List Nat)

/-- xbps_file_sha256_check (lines 177-192): hash the file; on failure
return errno unchanged; otherwise compare the expected hex string
(with its strlen) against the 32-byte digest buffer and return 0 on a
match, ERANGE otherwise. -/
def xbps_file_sha256_check (fs : HashFs) (file : CStr) (sha256 : CStr) : Nat :=
  match fs file with
  | .error e => e
  | .ok digest =>
    if sha256_digest_compare sha256 (cstrlen sha256) digest XBPS_SHA256_DIGEST_SIZE
    then 0 else ERANGE

/-- One entry of the keyed metadata array: the observable "file" and
"sha256" string fields, either of which may be absent
(xbps_dictionary_get_cstring_nocopy then leaves its output argument
untouched). -/
structure Entry where
  file : Option CStr
  sha256 : Option CStr

/-- The metadata collection as xbps_array_iter_from_dict exposes it:
keyed retrieval of an iterable array of entries, none when the key yields
no iterable array (iterator NULL, lines 205-209). -/
abbrev Dict := CStr → Option (List Entry)

/-- The scan loop of file_hash_dictionary (lines 210-219). `curfile`
holds the last string stored by xbps_dictionary_get_cstring_nocopy;
an entry without a "file" field leaves it untouched, so the comparison
then runs against the stale previous value. While no entry has stored a
value yet, curfile is NULL and the C code would pass NULL to strcmp; that
case cannot occur for the well-formed entry lists the theorems assume,
and the model scans on. On the first match the loop reads the "sha256"
field of that entry and breaks, so later duplicates are never reached. -/
def findLoop (file : CStr) : List Entry → Option CStr → Option CStr
  | [], _ => none
  | e :: rest, curfile =>
    match (match e.file with | some f => some f | none => curfile) with
    | none => findLoop file rest none
    | some c => if file = c then e.sha256 else findLoop file rest (some c)

/-- file_hash_dictionary (lines 194-225). Every NULL return sets errno to
ENOENT (line 207 for a missing or non-array key, lines 221-222 when no
digest was found), which the caller relies on. -/
def file_hash_dictionary (d : Dict) (key : CStr) (file : CStr) : Option CStr :=
  match d key with
  | none => none
  | some entries => findLoop file entries none

/-- Effective on-disk path (lines 248-253): the raw file when rootdir is
exactly the one-character string "/" (code 47), otherwise the
xbps_xasprintf concatenation rootdir ++ "/" ++ file. -/
def effectivePath (rootdir file : CStr) : CStr :=
  if rootdir = [47] then file else rootdir ++ 47 :: file

/-- xbps_file_hash_check_dictionary (lines 227-261). When
file_hash_dictionary returns NULL, errno is always ENOENT (see above), so
the code takes the `return 1` branch of line 243 and the line 245 error
branch is unreachable; the function then never consults the filesystem.
Otherwise it hashes the effective path and maps the result: 0 stays 0
(matched), ERANGE or ENOENT become 1 (no match), anything else -1
(error). -/
def xbps_file_hash_check_dictionary (fs : HashFs) (rootdir : CStr)
    (d : Dict) (key file : CStr) : Int :=
  match file_hash_dictionary d key file with
  | none => 1
  | some sha256d =>
    let rv := xbps_file_sha256_check fs (effectivePath rootdir file) sha256d
    if rv = 0 then 0
    else if rv = ERANGE ∨ rv = ENOENT then 1
    else -1

/-- Wrap-around modulus of 64-bit size_t arithmetic. -/
def SIZE_T_MOD : Nat := 2 ^ 64

/-- SSIZE_MAX for a 64-bit ssize_t. -/
def SSIZE_MAX : Nat := 2 ^ 63 - 1

/-- pgmask = pgsize - 1 in size_t arithmetic (line 46), wrapping when
pgsize is 0. -/
def pgmaskOf (pgsize : Nat) : Nat := (pgsize + (SIZE_T_MOD - 1)) % SIZE_T_MOD

/-- mapsize computation of line 64 in size_t arithmetic:
(st_size + pgmask) with wrap-around, masked by the complement of pgmask
(the complement of x below 2 ^ 64 is 2 ^ 64 - 1 - x). -/
def mapsizeOf (pgsize stSize : Nat) : Nat :=
  ((stSize + pgmaskOf pgsize) % SIZE_T_MOD) &&& (SIZE_T_MOD - 1 - pgmaskOf pgsize)

/-- Observable behaviour of one xbps_mmap_file call. `requested` is the
length handed to mmap, none when mmap was never reached; `mmflen` and
`filelen` are the values stored through the output arguments on success;
`fdClosed` records whether the descriptor opened by the call was closed
again before returning. -/
structure MmapModel where
  ok : Bool
  requested : Option Nat
  mmflen : Option Nat
  filelen : Option Nat
  fdClosed : Bool

/-- xbps_mmap_file (lines 41-90). `pgsize` is the sysconf page size,
`stSize` the non-negative fstat size of the file; `openOk`, `fstatOk` and
`mmapOk` stand for the success of the corresponding system calls. The
checks run in source order: open, fstat, the SSIZE_MAX - 1 size guard
(line 60), the page-rounding overflow guard mapsize < st_size (line 65),
then the guard-page rule of line 74 (st_size & pgmask == 0), the mmap
request of length mapsize + pgsize when a guard page is needed and
mapsize otherwise, the unconditional close of line 79, and on success the
stores of lines 85-87: mapsize (without the guard page) and st_size. -/
def xbps_mmap_file (pgsize stSize : Nat) (openOk fstatOk mmapOk : Bool) :
    MmapModel :=
  if !openOk then ⟨false, none, none, none, false⟩
  else if !fstatOk then ⟨false, none, none, none, true⟩
  else if SSIZE_MAX - 1 < stSize then ⟨false, none, none, none, true⟩
  else
    let mapsize := mapsizeOf pgsize stSize
    if mapsize < stSize then ⟨false, none, none, none, true⟩
    else
      let needGuard := stSize &&& pgmaskOf pgsize == 0
      let req := (if needGuard then mapsize + pgsize else mapsize) % SIZE_T_MOD
      if !mmapOk then ⟨false, some req, none, none, true⟩
      else ⟨true, some req, some mapsize, some stSize, true⟩

/-- Modelled from the spec: round_up(file_size, page_size), the least
multiple of page_size at or above file_size, written as page_size times
the ceiling division. The spec states the mapped length in these terms;
the code computes it with the bit mask of `mapsizeOf`. -/
def round_up (s p : Nat) : Nat := p * ((s + p - 1) / p)

/-- Hex expansion of a byte list, two characters per byte: the common
value produced by digest2string and checked by the compare walk. -/
def hexChars : List Nat → List Nat
  | [] => []
  | b :: rest => hexHi b :: hexLo b :: hexChars rest

theorem hexHi_ne_zero (b : Nat) : hexHi b ≠ 0 := by
  unfold hexHi; split <;> omega

theorem hexLo_ne_zero (b : Nat) : hexLo b ≠ 0 := by
  unfold hexLo; split <;> omega

theorem digest2string_eq_hexChars (d : List Nat) :
    digest2string d d.length = hexChars d := by
  induction d with
  | nil => rfl
  | cons b rest ih =>
    simp only [List.length_cons, digest2string, hexChars]
    rw [ih]

theorem hexChars_length (d : List Nat) : (hexChars d).length = 2 * d.length := by
  induction d with
  | nil => rfl
  | cons b rest ih =>
    simp only [hexChars, List.length_cons, ih]
    omega

theorem hexChars_ne_zero (d : List Nat) : ∀ c ∈ hexChars d, c ≠ 0 := by
  induction d with
  | nil => simp [hexChars]
  | cons b rest ih =>
    simp only [hexChars, List.mem_cons]
    rintro c (rfl | rfl | hc)
    · exact hexHi_ne_zero b
    · exact hexLo_ne_zero b
    · exact ih c hc

theorem cstrlen_eq_length (s : CStr) (h : ∀ c ∈ s, c ≠ 0) :
    cstrlen s = s.length := by
  induction s with
  | nil => rfl
  | cons c rest ih =>
    have hc : (c != 0) = true := by
      simpa using h c (List.mem_cons_self c rest)
    have hrest : ∀ x ∈ rest, x ≠ 0 := fun x hx => h x (List.mem_cons_of_mem c hx)
    simp only [cstrlen, List.takeWhile_cons, hc, if_true, List.length_cons]
    exact congrArg (· + 1) (ih hrest)

theorem compareWalk_iff (d : List Nat) : ∀ s : CStr, s.length = 2 * d.length →
    (∀ c ∈ s, c ≠ 0) → (compareWalk s d = true ↔ s = hexChars d) := by
  induction d with
  | nil =>
    intro s hlen _
    have hs : s = [] := List.eq_nil_of_length_eq_zero (by
      simp only [List.length_nil] at hlen
      omega)
    subst hs
    simp [compareWalk, hexChars]
  | cons b rest ih =>
    intro s hlen hnz
    match s with
    | [] => simp only [List.length_nil, List.length_cons] at hlen; omega
    | [c1] => simp only [List.length_cons, List.length_nil] at hlen; omega
    | c1 :: c2 :: s2 =>
      have hc1 : c1 ≠ 0 := hnz c1 (by simp)
      have hlen2 : s2.length = 2 * rest.length := by
        simp only [List.length_cons] at hlen ⊢; omega
      have hnz2 : ∀ c ∈ s2, c ≠ 0 := fun c hc => hnz c (by simp [hc])
      show (if c1 = 0 then true
            else if c1 = hexHi b then
              (if c2 = hexLo b then compareWalk s2 rest else false)
            else false) = true ↔ _
      rw [if_neg hc1]
      constructor
      · intro h
        by_cases h1 : c1 = hexHi b
        · by_cases h2 : c2 = hexLo b
          · rw [if_pos h1, if_pos h2] at h
            have h3 := (ih s2 hlen2 hnz2).mp h
            simp [hexChars, h1, h2, h3]
          · rw [if_pos h1, if_neg h2] at h
            exact absurd h (by simp)
        · rw [if_neg h1] at h
          exact absurd h (by simp)
      · intro h
        have h' : c1 = hexHi b ∧ c2 = hexLo b ∧ s2 = hexChars rest := by
          simpa [hexChars] using h
        obtain ⟨h1, h2, h3⟩ := h'
        rw [if_pos h1, if_pos h2]
        exact (ih s2 hlen2 hnz2).mpr h3

/-- C2: comparing the hex encoding of a raw 32-byte digest against the
digest itself succeeds: sha256_digest_compare, applied as the code
applies it (with strlen of the encoded string), accepts
digest2string of d against d. -/
theorem sha256_hex_roundtrip (d : List Nat)
    (hd : d.length = XBPS_SHA256_DIGEST_SIZE) (hb : ∀ b ∈ d, b < 256) :
    sha256_digest_compare (digest2string d XBPS_SHA256_DIGEST_SIZE)
      (cstrlen (digest2string d XBPS_SHA256_DIGEST_SIZE))
      d XBPS_SHA256_DIGEST_SIZE = true := by
  have henc : digest2string d XBPS_SHA256_DIGEST_SIZE = hexChars d := by
    rw [← hd]; exact digest2string_eq_hexChars d
  have hlen : (hexChars d).length = 64 := by
    rw [hexChars_length, hd]; rfl
  have hstr : cstrlen (hexChars d) = 64 := by
    rw [cstrlen_eq_length _ (hexChars_ne_zero d), hlen]
  rw [henc, hstr]
  show sha256_digest_compare (hexChars d) 64 d XBPS_SHA256_DIGEST_SIZE = true
  unfold sha256_digest_compare
  rw [if_neg (by norm_num [XBPS_SHA256_SIZE]),
      if_neg (by norm_num [XBPS_SHA256_DIGEST_SIZE])]
  exact (compareWalk_iff d (hexChars d) (by rw [hexChars_length]) (hexChars_ne_zero d)).mpr rfl

theorem sha256_hex_roundtrip_witness :
    sha256_digest_compare (digest2string (List.replicate 32 0) XBPS_SHA256_DIGEST_SIZE)
      (cstrlen (digest2string (List.replicate 32 0) XBPS_SHA256_DIGEST_SIZE))
      (List.replicate 32 0) XBPS_SHA256_DIGEST_SIZE = true :=
  sha256_hex_roundtrip (List.replicate 32 0) (by decide) (by decide)

/-- C3: for a NUL-free string s of length 64 (a C string of strlen 64)
and a 32-byte raw digest d, the inline nibble-walking comparison accepts
exactly when the hex encoding of d equals s character for character. -/
theorem sha256_compare_refines_encode (s : CStr) (d : List Nat)
    (hs : s.length = 64) (hnz : ∀ c ∈ s, c ≠ 0)
    (hd : d.length = 32) (hb : ∀ b ∈ d, b < 256) :
    (sha256_digest_compare s 64 d 32 = true ↔ digest2string d 32 = s) := by
  have henc : digest2string d 32 = hexChars d := by
    rw [← hd]; exact digest2string_eq_hexChars d
  rw [henc]
  show sha256_digest_compare s 64 d 32 = true ↔ _
  unfold sha256_digest_compare
  rw [if_neg (by norm_num [XBPS_SHA256_SIZE]),
      if_neg (by norm_num [XBPS_SHA256_DIGEST_SIZE])]
  rw [compareWalk_iff d s (by omega) hnz]
  exact eq_comm

theorem sha256_compare_refines_encode_witness :
    (sha256_digest_compare (List.replicate 64 48) 64 (List.replicate 32 0) 32 = true ↔
      digest2string (List.replicate 32 0) 32 = List.replicate 64 48) :=
  sha256_compare_refines_encode (List.replicate 64 48) (List.replicate 32 0)
    (by decide) (by decide) (by decide) (by decide)

theorem findLoop_first_match (path : CStr) :
    ∀ (es1 : List Entry) (e : Entry) (es2 : List Entry) (curfile : Option CStr),
    (∀ e0 ∈ es1, e0.file ≠ some path) → (∀ e0 ∈ es1, e0.file ≠ none) →
    curfile ≠ some path → e.file = some path →
    findLoop path (es1 ++ e :: es2) curfile = e.sha256 := by
  intro es1
  induction es1 with
  | nil =>
    intro e es2 curfile _ _ _ hmatch
    simp [List.nil_append, findLoop, hmatch]
  | cons e0 es1 ih =>
    intro e es2 curfile hnm hnn hcur hmatch
    have h0 : e0.file ≠ some path := hnm e0 (by simp)
    have h0' : e0.file ≠ none := hnn e0 (by simp)
    obtain ⟨f, hf⟩ := Option.ne_none_iff_exists'.mp h0'
    have hfp : path ≠ f := by
      intro hc
      exact h0 (by rw [hf, hc])
    simp only [List.cons_append, findLoop, hf]
    rw [if_neg hfp]
    exact ih e es2 (some f)
      (fun x hx => hnm x (by simp [hx]))
      (fun x hx => hnn x (by simp [hx]))
      (by intro hc; exact hfp (by injection hc with h; exact h.symm)) hmatch

theorem findLoop_no_match (path : CStr) :
    ∀ (es : List Entry) (curfile : Option CStr),
    (∀ e0 ∈ es, e0.file ≠ some path) → (∀ e0 ∈ es, e0.file ≠ none) →
    curfile ≠ some path →
    findLoop path es curfile = none := by
  intro es
  induction es with
  | nil => intro curfile _ _ _; rfl
  | cons e0 rest ih =>
    intro curfile hnm hnn hcur
    have h0 : e0.file ≠ some path := hnm e0 (by simp)
    have h0' : e0.file ≠ none := hnn e0 (by simp)
    obtain ⟨f, hf⟩ := Option.ne_none_iff_exists'.mp h0'
    have hfp : path ≠ f := by
      intro hc
      exact h0 (by rw [hf, hc])
    simp only [findLoop, hf]
    rw [if_neg hfp]
    exact ih (some f)
      (fun x hx => hnm x (by simp [hx]))
      (fun x hx => hnn x (by simp [hx]))
      (by intro hc; exact hfp (by injection hc with h; exact h.symm))

/-- C6: the digest reported is the one of the first entry in iteration
order whose file field equals the path, regardless of later duplicates,
and when no entry matches the result is none; a first match without a
sha256 field also yields none, the same as no match at all. -/
theorem file_hash_dictionary_first_match (d : Dict) (key path : CStr)
    (es : List Entry) (hd : d key = some es)
    (hfiles : ∀ e0 ∈ es, e0.file ≠ none) :
    (∀ es1 e es2, es = es1 ++ e :: es2 →
      (∀ e0 ∈ es1, e0.file ≠ some path) → e.file = some path →
      file_hash_dictionary d key path = e.sha256) ∧
    ((∀ e0 ∈ es, e0.file ≠ some path) →
      file_hash_dictionary d key path = none) := by
  constructor
  · intro es1 e es2 hsplit hnm hmatch
    unfold file_hash_dictionary
    rw [hd]
    subst hsplit
    exact findLoop_first_match path es1 e es2 none hnm
      (fun x hx => hfiles x (by simp [hx])) (by simp) hmatch
  · intro hnm
    unfold file_hash_dictionary
    rw [hd]
    exact findLoop_no_match path es none hnm hfiles (by simp)

theorem file_hash_dictionary_first_match_witness :
    file_hash_dictionary
      (fun k => if k = [1] then
        some [⟨some [2], some [10]⟩, ⟨some [2], some [11]⟩] else none)
      [1] [2] = some [10] :=
  (file_hash_dictionary_first_match
      (fun k => if k = [1] then
        some [⟨some [2], some [10]⟩, ⟨some [2], some [11]⟩] else none)
      [1] [2] [⟨some [2], some [10]⟩, ⟨some [2], some [11]⟩] rfl
      (by decide)).1
    [] ⟨some [2], some [10]⟩ [⟨some [2], some [11]⟩] rfl (by decide) rfl

/-- C1 (amended): when the digest lookup reports not found (errno is then
always ENOENT), the verification returns 1 immediately, without
consulting the filesystem oracle; in the result set of the code the
not-found value 1 is distinct from 0 (matched) and -1 (error), but it is
the same value the mismatch path returns. -/
theorem hash_check_dictionary_notfound (fs fs2 : HashFs) (rootdir : CStr)
    (d : Dict) (key file : CStr)
    (h : file_hash_dictionary d key file = none) :
    xbps_file_hash_check_dictionary fs rootdir d key file = 1 ∧
    xbps_file_hash_check_dictionary fs rootdir d key file =
      xbps_file_hash_check_dictionary fs2 rootdir d key file ∧
    (1 : Int) ≠ 0 ∧ (1 : Int) ≠ -1 := by
  unfold xbps_file_hash_check_dictionary
  rw [h]
  exact ⟨rfl, rfl, by decide, by decide⟩

theorem hash_check_dictionary_notfound_witness :
    xbps_file_hash_check_dictionary (fun _ => .error 2) [47]
      (fun _ => none) [1] [2] = 1 :=
  (hash_check_dictionary_notfound (fun _ => .error 2) (fun _ => .error 2)
    [47] (fun _ => none) [1] [2] rfl).1

/-- C1 counterexample: the claim calls not-found an outcome distinct from
the mismatch outcome, but the code returns the same value 1 both when the
path has no entry in the collection and when an entry was found and the
digest comparison fails (here: the stored digest string has the wrong
length, so check_file yields ERANGE), so the two outcomes are
indistinguishable to the caller. -/
theorem hash_check_dictionary_notfound_counterexample :
    xbps_file_hash_check_dictionary (fun _ => .error 2) [47]
      (fun _ => none) [1] [2] = 1 ∧
    xbps_file_hash_check_dictionary (fun _ => .ok (List.replicate 32 0)) [47]
      (fun _ => some [⟨some [2], some [97]⟩]) [1] [2] = 1 := by
  exact ⟨by decide, by decide⟩

/-- C4: check_file returns 0 exactly when the computed digest hex-matches
the expected string, ERANGE when the comparison fails or the expected
string does not have strlen 64, and the errno of a failed hash unchanged. -/
theorem file_sha256_check_outcomes (fs : HashFs) (file sha256 : CStr) :
    (∀ e, fs file = .error e → xbps_file_sha256_check fs file sha256 = e) ∧
    (∀ dg, fs file = .ok dg →
      sha256_digest_compare sha256 (cstrlen sha256) dg XBPS_SHA256_DIGEST_SIZE = true →
      xbps_file_sha256_check fs file sha256 = 0) ∧
    (∀ dg, fs file = .ok dg →
      sha256_digest_compare sha256 (cstrlen sha256) dg XBPS_SHA256_DIGEST_SIZE = false →
      xbps_file_sha256_check fs file sha256 = ERANGE) ∧
    (∀ dg, fs file = .ok dg → cstrlen sha256 ≠ 64 →
      xbps_file_sha256_check fs file sha256 = ERANGE) := by
  refine ⟨?_, ?_, ?_, ?_⟩
  · intro e h
    unfold xbps_file_sha256_check
    rw [h]
  · intro dg h hcmp
    unfold xbps_file_sha256_check
    rw [h]
    simp [hcmp]
  · intro dg h hcmp
    unfold xbps_file_sha256_check
    rw [h]
    simp [hcmp]
  · intro dg h hlen
    unfold xbps_file_sha256_check
    rw [h]
    have hcmp : sha256_digest_compare sha256 (cstrlen sha256) dg XBPS_SHA256_DIGEST_SIZE = false := by
      unfold sha256_digest_compare
      rw [if_pos (by simp [XBPS_SHA256_SIZE]; omega)]
    simp [hcmp]

theorem file_sha256_check_outcomes_witness :
    xbps_file_sha256_check (fun _ => .error 5) [97] [98] = 5 ∧
    xbps_file_sha256_check (fun _ => .ok (List.replicate 32 0)) [97]
      (List.replicate 64 48) = 0 ∧
    xbps_file_sha256_check (fun _ => .ok (List.replicate 32 0)) [97] [98] = ERANGE :=
  ⟨(file_sha256_check_outcomes (fun _ => .error 5) [97] [98]).1 5 rfl,
   (file_sha256_check_outcomes (fun _ => .ok (List.replicate 32 0)) [97]
      (List.replicate 64 48)).2.1 (List.replicate 32 0) rfl (by decide),
   (file_sha256_check_outcomes (fun _ => .ok (List.replicate 32 0)) [97]
      [98]).2.2.2 (List.replicate 32 0) rfl (by decide)⟩

/-- C5: with a digest found in the collection, the mapping of the
check_file result rv is: 0 to 0 (matched), ERANGE or ENOENT to 1 (the
single no-match outcome), any other value to -1 (error). -/
theorem hash_check_dictionary_mapping (fs : HashFs) (rootdir : CStr)
    (d : Dict) (key file sha : CStr)
    (h : file_hash_dictionary d key file = some sha) :
    (xbps_file_sha256_check fs (effectivePath rootdir file) sha = 0 →
      xbps_file_hash_check_dictionary fs rootdir d key file = 0) ∧
    (xbps_file_sha256_check fs (effectivePath rootdir file) sha = ERANGE ∨
     xbps_file_sha256_check fs (effectivePath rootdir file) sha = ENOENT →
      xbps_file_hash_check_dictionary fs rootdir d key file = 1) ∧
    (xbps_file_sha256_check fs (effectivePath rootdir file) sha ≠ 0 →
     xbps_file_sha256_check fs (effectivePath rootdir file) sha ≠ ERANGE →
     xbps_file_sha256_check fs (effectivePath rootdir file) sha ≠ ENOENT →
      xbps_file_hash_check_dictionary fs rootdir d key file = -1) := by
  unfold xbps_file_hash_check_dictionary
  rw [h]
  refine ⟨?_, ?_, ?_⟩
  · intro h0
    simp [h0]
  · rintro (h1 | h1) <;> simp [h1, ERANGE, ENOENT]
  · intro h1 h2 h3
    simp only []
    rw [if_neg h1, if_neg (by tauto)]

/-- Witness for C5 at concrete inputs: the matched case and the error
case. -/
theorem hash_check_dictionary_mapping_witness :
    xbps_file_hash_check_dictionary (fun _ => .ok (List.replicate 32 0)) [47]
      (fun _ => some [⟨some [2], some (List.replicate 64 48)⟩]) [1] [2] = 0 ∧
    xbps_file_hash_check_dictionary (fun _ => .error 5) [47]
      (fun _ => some [⟨some [2], some (List.replicate 64 48)⟩]) [1] [2] = -1 :=
  ⟨(hash_check_dictionary_mapping (fun _ => .ok (List.replicate 32 0)) [47]
      (fun _ => some [⟨some [2], some (List.replicate 64 48)⟩]) [1] [2]
      (List.replicate 64 48) rfl).1 (by decide),
   (hash_check_dictionary_mapping (fun _ => .error 5) [47]
      (fun _ => some [⟨some [2], some (List.replicate 64 48)⟩]) [1] [2]
      (List.replicate 64 48) rfl).2.2 (by decide) (by decide) (by decide)⟩

/-- C7: path resolution of the verification: with rootdir exactly "/"
the raw path is used; otherwise the concatenation rootdir ++ "/" ++ path;
and the verification reads the filesystem oracle only at that effective
path. -/
theorem effective_path_resolution (fs fs2 : HashFs) (rootdir : CStr)
    (d : Dict) (key file : CStr) :
    (rootdir = [47] → effectivePath rootdir file = file) ∧
    (rootdir ≠ [47] → effectivePath rootdir file = rootdir ++ 47 :: file) ∧
    (fs (effectivePath rootdir file) = fs2 (effectivePath rootdir file) →
      xbps_file_hash_check_dictionary fs rootdir d key file =
        xbps_file_hash_check_dictionary fs2 rootdir d key file) := by
  refine ⟨fun h => by simp [effectivePath, h], fun h => by simp [effectivePath, h], fun h => ?_⟩
  have hchk : ∀ sha, xbps_file_sha256_check fs (effectivePath rootdir file) sha =
      xbps_file_sha256_check fs2 (effectivePath rootdir file) sha := by
    intro sha
    unfold xbps_file_sha256_check
    rw [h]
  unfold xbps_file_hash_check_dictionary
  cases hfd : file_hash_dictionary d key file with
  | none => rfl
  | some sha => simp only [hchk sha]

theorem effective_path_resolution_witness :
    effectivePath [47] [97] = [97] ∧
    effectivePath [47, 98] [97] = [47, 98, 47, 97] ∧
    xbps_file_hash_check_dictionary (fun p => if p = [2] then .error 5 else .error 6) [47]
      (fun _ => none) [1] [2] =
      xbps_file_hash_check_dictionary (fun p => if p = [2] then .error 5 else .error 7) [47]
        (fun _ => none) [1] [2] :=
  ⟨(effective_path_resolution (fun _ => .error 5) (fun _ => .error 5) [47]
      (fun _ => none) [1] [97]).1 rfl,
   (effective_path_resolution (fun _ => .error 5) (fun _ => .error 5) [47, 98]
      (fun _ => none) [1] [97]).2.1 (by decide),
   (effective_path_resolution (fun p => if p = [2] then .error 5 else .error 6)
      (fun p => if p = [2] then .error 5 else .error 7) [47]
      (fun _ => none) [1] [2]).2.2 rfl⟩

theorem land_high_mask (n k x : Nat) (hk : k ≤ n) (hx : x < 2 ^ n) :
    x &&& (2 ^ n - 2 ^ k) = 2 ^ k * (x / 2 ^ k) := by
  have h1 : 2 ^ n - 2 ^ k = (2 ^ (n - k) - 1) <<< k := by
    rw [Nat.shiftLeft_eq, Nat.sub_mul, one_mul, ← Nat.pow_add]
    congr 2
    omega
  have h2 : 2 ^ k * (x / 2 ^ k) = (x >>> k) <<< k := by
    rw [Nat.shiftRight_eq_div_pow, Nat.shiftLeft_eq, Nat.mul_comm]
  rw [h1, h2]
  apply Nat.eq_of_testBit_eq
  intro i
  rw [Nat.testBit_and, Nat.testBit_shiftLeft, Nat.testBit_shiftLeft,
      Nat.testBit_shiftRight, Nat.testBit_two_pow_sub_one]
  by_cases hik : k ≤ i
  · have hik' : i ≥ k := hik
    have hadd : k + (i - k) = i := by omega
    rw [hadd]
    by_cases hin : i < n
    · have hbound : i - k < n - k := by omega
      simp [hik', hbound]
    · have hxi : x.testBit i = false := by
        apply Nat.testBit_lt_two_pow
        calc x < 2 ^ n := hx
        _ ≤ 2 ^ i := Nat.pow_le_pow_right (by norm_num) (by omega)
      have hbound : ¬ (i - k < n - k) := by omega
      simp [hxi, hbound]
  · have hik' : ¬ (i ≥ k) := hik
    simp [hik']

theorem land_low_mask (k x : Nat) : x &&& (2 ^ k - 1) = x % 2 ^ k := by
  apply Nat.eq_of_testBit_eq
  intro i
  rw [Nat.testBit_and, Nat.testBit_two_pow_sub_one, Nat.testBit_mod_two_pow]
  rw [Bool.and_comm]

theorem round_up_of_dvd (s p : Nat) (hp : 0 < p) (h : s % p = 0) :
    round_up s p = s := by
  obtain ⟨m, rfl⟩ := Nat.dvd_of_mod_eq_zero h
  unfold round_up
  have h1 : p * m + p - 1 = p * m + (p - 1) := by omega
  rw [h1, Nat.mul_add_div hp, Nat.div_eq_of_lt (by omega), Nat.add_zero]

theorem round_up_of_not_dvd (s p : Nat) (hp : 0 < p) (h : s % p ≠ 0) :
    round_up s p = p * (s / p) + p ∧ s < round_up s p := by
  have hdm := Nat.div_add_mod s p
  have hrlt : s % p < p := Nat.mod_lt s hp
  have heq : round_up s p = p * (s / p) + p := by
    unfold round_up
    have h1 : s + p - 1 = p * (s / p) + (s % p + p - 1) := by omega
    have h2 : (s % p + p - 1) / p = 1 := by
      have h3 : s % p + p - 1 = (s % p - 1) + p := by omega
      rw [h3, Nat.add_div_right _ hp, Nat.div_eq_of_lt (by omega)]
    rw [h1, Nat.mul_add_div hp, h2, Nat.mul_add, Nat.mul_one]
  exact ⟨heq, by rw [heq]; omega⟩

theorem round_up_le (s p : Nat) : round_up s p ≤ s + p - 1 := by
  unfold round_up
  rw [Nat.mul_comm]
  exact Nat.div_mul_le_self (s + p - 1) p

theorem pgmaskOf_pow (k : Nat) (hk : k ≤ 63) : pgmaskOf (2 ^ k) = 2 ^ k - 1 := by
  unfold pgmaskOf SIZE_T_MOD
  have hp1 : (1:Nat) ≤ 2 ^ k := Nat.one_le_two_pow
  have hpk : (2:Nat) ^ k ≤ 2 ^ 63 := Nat.pow_le_pow_right (by norm_num) hk
  have h1 : 2 ^ k + (2 ^ 64 - 1) = 2 ^ 64 + (2 ^ k - 1) := by omega
  rw [h1, Nat.add_mod_left]
  apply Nat.mod_eq_of_lt
  have h64 : (2:Nat) ^ 63 < 2 ^ 64 := by norm_num
  omega

theorem mapsizeOf_round_up (k s : Nat) (hk : k ≤ 63) (hs : s ≤ SSIZE_MAX - 1) :
    mapsizeOf (2 ^ k) s = round_up s (2 ^ k) := by
  unfold mapsizeOf
  rw [pgmaskOf_pow k hk]
  have hp1 : (1:Nat) ≤ 2 ^ k := Nat.one_le_two_pow
  have hpk : (2:Nat) ^ k ≤ 2 ^ 63 := Nat.pow_le_pow_right (by norm_num) hk
  have hssize : s ≤ 2 ^ 63 - 2 := by unfold SSIZE_MAX at hs; omega
  have hsum : (2:Nat) ^ 63 + 2 ^ 63 = 2 ^ 64 := by norm_num
  have hx : s + (2 ^ k - 1) < 2 ^ 64 := by omega
  have hmod : (s + (2 ^ k - 1)) % SIZE_T_MOD = s + (2 ^ k - 1) := by
    unfold SIZE_T_MOD
    exact Nat.mod_eq_of_lt hx
  rw [hmod]
  have hmask : SIZE_T_MOD - 1 - (2 ^ k - 1) = 2 ^ 64 - 2 ^ k := by
    unfold SIZE_T_MOD
    omega
  rw [hmask, land_high_mask 64 k _ (by omega) hx]
  unfold round_up
  have harg : s + (2 ^ k - 1) = s + 2 ^ k - 1 := by omega
  rw [harg]

theorem needGuard_eq (k s : Nat) (hk : k ≤ 63) :
    (s &&& pgmaskOf (2 ^ k) == 0) = decide (s % 2 ^ k = 0) := by
  rw [pgmaskOf_pow k hk, land_low_mask]
  by_cases h : s % 2 ^ k = 0 <;> simp [h]

theorem mmap_success_characterization (k s : Nat) (hk : k ≤ 63)
    (hs : s ≤ SSIZE_MAX - 1) :
    xbps_mmap_file (2 ^ k) s true true true =
      ⟨true, some (round_up s (2 ^ k) + (if s % 2 ^ k = 0 then 2 ^ k else 0)),
       some (round_up s (2 ^ k)), some s, true⟩ := by
  have hp : 0 < 2 ^ k := Nat.two_pow_pos k
  have hmap : mapsizeOf (2 ^ k) s = round_up s (2 ^ k) := mapsizeOf_round_up k s hk hs
  have hge : ¬ (mapsizeOf (2 ^ k) s < s) := by
    rw [hmap]
    by_cases h : s % 2 ^ k = 0
    · rw [round_up_of_dvd s (2 ^ k) hp h]; omega
    · have := (round_up_of_not_dvd s (2 ^ k) hp h).2; omega
  have hnot : ¬ (SSIZE_MAX - 1 < s) := by omega
  unfold xbps_mmap_file
  rw [if_neg (by simp), if_neg (by simp), if_neg hnot, if_neg hge,
      if_neg (by simp), needGuard_eq k s hk]
  have hpk : (2:Nat) ^ k ≤ 2 ^ 63 := Nat.pow_le_pow_right (by norm_num) hk
  have hssize : s ≤ 2 ^ 63 - 2 := by unfold SSIZE_MAX at hs; omega
  have hsum : (2:Nat) ^ 63 + 2 ^ 63 = 2 ^ 64 := by norm_num
  by_cases h : s % 2 ^ k = 0
  · rw [if_pos (by simp [h])]
    have hru : round_up s (2 ^ k) = s := round_up_of_dvd s (2 ^ k) (Nat.two_pow_pos k) h
    have hlt : mapsizeOf (2 ^ k) s + 2 ^ k < SIZE_T_MOD := by
      unfold SIZE_T_MOD
      rw [hmap, hru]
      omega
    rw [Nat.mod_eq_of_lt hlt, hmap, hru, if_pos h]
  · rw [if_neg (by simp [h])]
    have hle : round_up s (2 ^ k) ≤ s + 2 ^ k - 1 := round_up_le s (2 ^ k)
    have hlt : mapsizeOf (2 ^ k) s < SIZE_T_MOD := by
      unfold SIZE_T_MOD
      rw [hmap]
      omega
    rw [Nat.mod_eq_of_lt hlt, hmap, if_neg h, Nat.add_zero]

/-- C8: a successful mapping with a power-of-two page size and a
representable file size stores the page-rounded length and the exact file
length, and the mmap request adds one guard page beyond the rounded
length exactly when the file size is a multiple of the page size, so the
byte at offset s lies inside the requested mapping. -/
theorem mmap_round_up_and_guard (k s : Nat) (hk : k ≤ 63)
    (hs : s ≤ SSIZE_MAX - 1) :
    (xbps_mmap_file (2 ^ k) s true true true).ok = true ∧
    (xbps_mmap_file (2 ^ k) s true true true).mmflen =
      some (round_up s (2 ^ k)) ∧
    (xbps_mmap_file (2 ^ k) s true true true).filelen = some s ∧
    (xbps_mmap_file (2 ^ k) s true true true).requested =
      some (round_up s (2 ^ k) + (if s % 2 ^ k = 0 then 2 ^ k else 0)) ∧
    s < round_up s (2 ^ k) + (if s % 2 ^ k = 0 then 2 ^ k else 0) := by
  rw [mmap_success_characterization k s hk hs]
  refine ⟨rfl, rfl, rfl, rfl, ?_⟩
  have hp : 0 < 2 ^ k := Nat.two_pow_pos k
  by_cases h : s % 2 ^ k = 0
  · rw [if_pos h, round_up_of_dvd s (2 ^ k) hp h]
    omega
  · rw [if_neg h]
    have := (round_up_of_not_dvd s (2 ^ k) hp h).2
    omega

theorem mmap_round_up_and_guard_witness :
    (xbps_mmap_file (2 ^ 12) 5000 true true true).ok = true ∧
    (xbps_mmap_file (2 ^ 12) 5000 true true true).mmflen =
      some (round_up 5000 (2 ^ 12)) ∧
    (xbps_mmap_file (2 ^ 12) 5000 true true true).filelen = some 5000 ∧
    (xbps_mmap_file (2 ^ 12) 5000 true true true).requested =
      some (round_up 5000 (2 ^ 12) + (if 5000 % 2 ^ 12 = 0 then 2 ^ 12 else 0)) ∧
    5000 < round_up 5000 (2 ^ 12) + (if 5000 % 2 ^ 12 = 0 then 2 ^ 12 else 0) :=
  mmap_round_up_and_guard 12 5000 (by decide) (by decide)

/-- C9: a stat size beyond the signed-length guard, or one whose page
rounding overflows size_t, makes the call fail before mmap is ever
reached: no mapping request is issued, nothing is stored, and the file
descriptor is closed. -/
theorem mmap_overflow_guard (pgsize s : Nat) (mOk : Bool)
    (h : SSIZE_MAX < s ∨ mapsizeOf pgsize s < s) :
    (xbps_mmap_file pgsize s true true mOk).ok = false ∧
    (xbps_mmap_file pgsize s true true mOk).requested = none ∧
    (xbps_mmap_file pgsize s true true mOk).mmflen = none ∧
    (xbps_mmap_file pgsize s true true mOk).fdClosed = true := by
  unfold xbps_mmap_file
  by_cases h1 : SSIZE_MAX - 1 < s
  · rw [if_neg (by simp), if_neg (by simp), if_pos h1]
    exact ⟨rfl, rfl, rfl, rfl⟩
  · have h2 : mapsizeOf pgsize s < s := by
      rcases h with h | h
      · exact absurd h (by unfold SSIZE_MAX at *; omega)
      · exact h
    rw [if_neg (by simp), if_neg (by simp), if_neg h1, if_pos h2]
    exact ⟨rfl, rfl, rfl, rfl⟩

theorem mmap_overflow_guard_witness :
    (xbps_mmap_file 4096 (2 ^ 63) true true true).ok = false ∧
    (xbps_mmap_file 4096 (2 ^ 63) true true true).requested = none ∧
    (xbps_mmap_file 4096 (2 ^ 63) true true true).mmflen = none ∧
    (xbps_mmap_file 4096 (2 ^ 63) true true true).fdClosed = true :=
  mmap_overflow_guard 4096 (2 ^ 63) true (Or.inl (by decide))

/-- C10: for a page-aligned size, the empty file included, the request
handed to mmap is one page more than the rounded length, but only the
rounded length (equal to the file size here) is stored back, so an unmap
with exactly the returned values leaves the guard page out. -/
theorem mmap_guard_page_excluded (k s : Nat) (hk : k ≤ 63)
    (hs : s ≤ SSIZE_MAX - 1) (hdvd : s % 2 ^ k = 0) :
    (xbps_mmap_file (2 ^ k) s true true true).requested =
      some (round_up s (2 ^ k) + 2 ^ k) ∧
    (xbps_mmap_file (2 ^ k) s true true true).mmflen =
      some (round_up s (2 ^ k)) ∧
    (xbps_mmap_file (2 ^ k) s true true true).filelen = some s ∧
    round_up s (2 ^ k) = s ∧
    round_up s (2 ^ k) < round_up s (2 ^ k) + 2 ^ k := by
  rw [mmap_success_characterization k s hk hs]
  refine ⟨by rw [if_pos hdvd], rfl, rfl,
    round_up_of_dvd s (2 ^ k) (Nat.two_pow_pos k) hdvd, ?_⟩
  have hp : 0 < 2 ^ k := Nat.two_pow_pos k
  omega

theorem mmap_guard_page_excluded_witness :
    (xbps_mmap_file (2 ^ 12) 0 true true true).requested =
      some (round_up 0 (2 ^ 12) + 2 ^ 12) ∧
    (xbps_mmap_file (2 ^ 12) 0 true true true).mmflen =
      some (round_up 0 (2 ^ 12)) ∧
    (xbps_mmap_file (2 ^ 12) 0 true true true).filelen = some 0 ∧
    round_up 0 (2 ^ 12) = 0 ∧
    round_up 0 (2 ^ 12) < round_up 0 (2 ^ 12) + 2 ^ 12 :=
  mmap_guard_page_excluded 12 0 (by decide) (by decide) (by decide)
